import Mathlib

/-!
Verification development for the PostcodeParse pipeline
(src/postcode_parse/data_processing.py, _constants.py, output.py).

The Python source is shallowly embedded: CSV files become lists of rows
(lists of strings), Python dicts (which preserve insertion order) become
association lists, and Python exceptions (IndexError from out-of-range row
indexing) become the error case of Except.  Machine-level concerns do not
arise: all data is strings and small naturals.
-/

namespace PostcodeParse

/-- Index of the postcode column in a PAF row (PAF_FORMAT["Postcode"] = 0). -/
def pafPostcodeIdx : Nat := 0

/-- Index of the organisation-name column (PAF_FORMAT["Organisation Name"] = 11). -/
def pafOrgNameIdx : Nat := 11

/-- Index of the postcode-type column (PAF_FORMAT["Postcode Type"] = 13). -/
def pafPostcodeTypeIdx : Nat := 13

/-- Index of the postcode column in an ONS row (ONS_FORMAT["Postcode"] = 2). -/
def onsPostcodeIdx : Nat := 2

/-- Index of the latitude column in an ONS row (ONS_FORMAT["Latitude"] = 41). -/
def onsLatitudeIdx : Nat := 41

/-- Index of the longitude column in an ONS row (ONS_FORMAT["Longitude"] = 42). -/
def onsLongitudeIdx : Nat := 42

/-- SystemDefs.ONS_FOLDER_NAME. -/
def ONS_FOLDER_NAME : String := "ONSPD_AUG_2024"

/-- Character class of the regex range A-Z. -/
def isUpperAZ (c : Char) : Bool := 'A' ≤ c && c ≤ 'Z'

/-- Character class of the regex range 0-9. -/
def isDigit09 (c : Char) : Bool := '0' ≤ c && c ≤ '9'

/-- Consume exactly n leading characters satisfying p, returning the consumed
characters and the remainder (a quantified atom of the regex engine). -/
def takeMatch (p : Char → Bool) : Nat → List Char → Option (List Char × List Char)
  | 0, cs => some ([], cs)
  | _ + 1, [] => none
  | n + 1, c :: cs =>
    if p c then (takeMatch p n cs).map (fun x => (c :: x.1, x.2)) else none

/-- One alternative of the backtracking engine: nl letters then nd digits
anchored at the start, returning the captured characters. -/
def tryLD (nl nd : Nat) (cs : List Char) : Option (List Char) :=
  (takeMatch isUpperAZ nl cs).bind fun x =>
    (takeMatch isDigit09 nd x.2).map fun y => x.1 ++ y.1

/-- SystemDefs.POSTCODE_DISTRICT_PATTERN.match: the anchored regex
([A-Z]{1,2}[0-9]{1,2}) with greedy quantifiers.  A backtracking engine tries
two letters before one and two digits before one, so the alternatives are
attempted in the order (2,2), (2,1), (1,2), (1,1); the capture of group 1 is
the whole consumed prefix. -/
def districtMatch (s : String) : Option String :=
  match tryLD 2 2 s.data <|> tryLD 2 1 s.data <|> tryLD 1 2 s.data <|> tryLD 1 1 s.data with
  | some cap => some (String.mk cap)
  | none => none

/-- _is_desired_postcode_district: the captured district must be a member of
the desired set (modelled as a list; Python set membership is exact string
equality). -/
def isDesiredPostcodeDistrict (data : String) (desiredPostcodeDistricts : List String) : Bool :=
  match districtMatch data with
  | some postcodeDistrict => desiredPostcodeDistricts.contains postcodeDistrict
  | none => false

/-- PostcodeData (class in _constants.py): latitude/longitude are only ever
stored for located postcodes, and address_count starts at 1. -/
structure PostcodeData where
  address_count : Nat
  latitude : String
  longitude : String
deriving DecidableEq, Repr

/-- Association-list lookup by key (first match), modelling Python dict
membership and access for string keys. -/
def findVal {β : Type} (k : String) : List (String × β) → Option β
  | [] => none
  | e :: es => if e.1 = k then some e.2 else findVal k es

/-- _retrieve_coords_ons: linear scan of the (trimmed) ONS rows; the first row
whose postcode column equals the query yields its latitude/longitude columns.
Python raises IndexError when an indexed column is missing, hence Except. -/
def retrieveCoordsOns (rows : List (List String)) (postcode : String) :
    Except String (Option (String × String)) :=
  match rows with
  | [] => .ok none
  | row :: rest =>
    match row.get? onsPostcodeIdx with
    | none => .error "IndexError"
    | some p =>
      if p = postcode then
        match row.get? onsLatitudeIdx, row.get? onsLongitudeIdx with
        | some la, some lo => .ok (some (la, lo))
        | _, _ => .error "IndexError"
      else retrieveCoordsOns rest postcode

/-- _add_to_unlocated_postcodes: increment the counter, creating it at 1. -/
def addToUnlocatedPostcodes (postcode : String) (unlocatedPostcodes : List (String × Nat)) :
    List (String × Nat) :=
  if (findVal postcode unlocatedPostcodes).isSome then
    unlocatedPostcodes.map (fun e => if e.1 = postcode then (e.1, e.2 + 1) else e)
  else unlocatedPostcodes ++ [(postcode, 1)]

/-- _add_new_postcode: look the postcode up in the ONS data; on success append
a fresh entry with count 1, otherwise record it as unlocated. -/
def addNewPostcode (postcode : String) (postcodeOutputDict : List (String × PostcodeData))
    (unlocatedPostcodes : List (String × Nat)) (onsData : List (List String)) :
    Except String (List (String × PostcodeData) × List (String × Nat)) :=
  (retrieveCoordsOns onsData postcode).map fun coords =>
    match coords with
    | none => (postcodeOutputDict, addToUnlocatedPostcodes postcode unlocatedPostcodes)
    | some (latitude, longitude) =>
      (postcodeOutputDict ++ [(postcode, ⟨1, latitude, longitude⟩)], unlocatedPostcodes)

/-- _update_postcode_data: existing postcodes get their count bumped in place;
new ones go through _add_new_postcode. -/
def updatePostcodeData (postcode : String) (postcodeOutputDict : List (String × PostcodeData))
    (unlocatedPostcodes : List (String × Nat)) (onsData : List (List String)) :
    Except String (List (String × PostcodeData) × List (String × Nat)) :=
  if (findVal postcode postcodeOutputDict).isSome then
    .ok (postcodeOutputDict.map
          (fun e => if e.1 = postcode then (e.1, ⟨e.2.address_count + 1, e.2.latitude, e.2.longitude⟩) else e),
        unlocatedPostcodes)
  else addNewPostcode postcode postcodeOutputDict unlocatedPostcodes onsData

/-- _is_valid_paf_row: both flag columns are indexed unconditionally (Python
evaluates both assignments before the conjunction), so a missing column is an
IndexError; otherwise the row qualifies iff the organisation name is empty,
the postcode type is "S" and the district is desired. -/
def isValidPafRow (row : List String) (postcode : String) (desiredPostcodeDistricts : List String) :
    Except String Bool :=
  match row.get? pafOrgNameIdx, row.get? pafPostcodeTypeIdx with
  | some org, some ptype =>
    .ok (decide (org = "") && decide (ptype = "S")
          && isDesiredPostcodeDistrict postcode desiredPostcodeDistricts)
  | _, _ => .error "IndexError"

/-- _process_paf_row: extract the postcode (IndexError on an empty row), test
validity, and update the state for qualifying rows. -/
def processPafRow (row : List String) (desiredPostcodeDistricts : List String)
    (postcodeOutputDict : List (String × PostcodeData)) (unlocatedPostcodes : List (String × Nat))
    (onsData : List (List String)) :
    Except String (List (String × PostcodeData) × List (String × Nat)) :=
  match row.get? pafPostcodeIdx with
  | none => .error "IndexError"
  | some postcode =>
    (isValidPafRow row postcode desiredPostcodeDistricts).bind fun valid =>
      if valid then updatePostcodeData postcode postcodeOutputDict unlocatedPostcodes onsData
      else .ok (postcodeOutputDict, unlocatedPostcodes)

/-- The loop of _process_paf_file with the two dictionaries as explicit
accumulators; the first row that raises aborts the whole pass. -/
def processPafFileFrom (rows : List (List String)) (desiredPostcodeDistricts : List String)
    (postcodeOutputDict : List (String × PostcodeData)) (unlocatedPostcodes : List (String × Nat))
    (onsData : List (List String)) :
    Except String (List (String × PostcodeData) × List (String × Nat)) :=
  match rows with
  | [] => .ok (postcodeOutputDict, unlocatedPostcodes)
  | row :: rest =>
    (processPafRow row desiredPostcodeDistricts postcodeOutputDict unlocatedPostcodes onsData).bind
      fun acc => processPafFileFrom rest desiredPostcodeDistricts acc.1 acc.2 onsData

/-- _process_paf_file: starts from two empty dictionaries. -/
def processPafFile (rows : List (List String)) (desiredPostcodeDistricts : List String)
    (onsData : List (List String)) :
    Except String (List (String × PostcodeData) × List (String × Nat)) :=
  processPafFileFrom rows desiredPostcodeDistricts [] [] onsData

/-- csv_output: the header row followed by one row per aggregate entry in
dictionary (insertion) order; the integer count is serialized in decimal. -/
def csvOutput (postcodeOutputDict : List (String × PostcodeData)) : List (List String) :=
  ["postcode", "address count", "latitude", "longitude"] ::
    postcodeOutputDict.map
      (fun e => [e.1, toString e.2.address_count, e.2.latitude, e.2.longitude])

/-- kml_output, modelled as the list of placemarks it emits: name, coordinate
pair in (longitude, latitude) order, and the AddressCount extended datum. -/
def kmlOutput (postcodeOutputDict : List (String × PostcodeData)) :
    List (String × (String × String) × Nat) :=
  postcodeOutputDict.map (fun e => (e.1, (e.2.longitude, e.2.latitude), e.2.address_count))

/-- _trim_file on in-memory rows: keep, in order, exactly the rows whose
postcode column is in a desired district; indexing a missing column raises. -/
def trimFile (rows : List (List String)) (desiredPostcodeDistricts : List String)
    (postcodeIndex : Nat) : Except String (List (List String)) :=
  match rows with
  | [] => .ok []
  | row :: rest =>
    match row.get? postcodeIndex with
    | none => .error "IndexError"
    | some pc =>
      (trimFile rest desiredPostcodeDistricts postcodeIndex).map
        (fun t => if isDesiredPostcodeDistrict pc desiredPostcodeDistricts then row :: t else t)

/-- re.sub(r"\d", "", outward_code): delete the decimal digits. -/
def stripDigits (s : String) : String := String.mk (s.data.filter (fun c => !(isDigit09 c)))

/-- os.path.join, modelled with a fixed separator. -/
def pathJoin (dir file : String) : String := dir ++ "/" ++ file

/-- str.startswith. -/
def strStartsWith (s pre : String) : Bool := pre.data.isPrefixOf s.data

/-- str.endswith. -/
def strEndsWith (s suf : String) : Bool := suf.data.isSuffixOf s.data

/-- Dropping the last n characters of a string. -/
def strDropRight (s : String) (n : Nat) : String :=
  String.mk (s.data.take (s.data.length - n))

/-- str.split("_"): maximal groups between underscores; always non-empty. -/
def splitOnUnderscore : List Char → List (List Char)
  | [] => [[]]
  | c :: rest =>
    match splitOnUnderscore rest with
    | [] => [[]]
    | g :: gs => if c = '_' then [] :: g :: gs else (c :: g) :: gs

/-- split("_")[-1] of a string. -/
def lastSegment (s : String) : String := String.mk ((splitOnUnderscore s.data).getLastD [])

/-- The loop of _find_ons_file over the directory listing.  For a candidate
name the guards ensure it has characters before the final ".csv", so
os.path.splitext's stem is the name with the last four characters dropped;
the stem's last underscore-separated segment is compared to the letters. -/
def findOnsFileGo (onsFolderPath : String) (outwardCode : String) (letters : String) :
    List String → Except String String
  | [] => .error ("ONS file for " ++ outwardCode ++ " couldn't be found in " ++ onsFolderPath)
  | f :: fs =>
    if strStartsWith f (ONS_FOLDER_NAME ++ "_UK_") && strEndsWith f ".csv" then
      if lastSegment (strDropRight f 4) = letters then
        .ok (pathJoin onsFolderPath f)
      else findOnsFileGo onsFolderPath outwardCode letters fs
    else findOnsFileGo onsFolderPath outwardCode letters fs

/-- _find_ons_file: derive the digit-stripped letters of the outward code and
scan the folder listing in order. -/
def findOnsFile (onsFolderPath : String) (onsFiles : List String) (outwardCode : String) :
    Except String String :=
  findOnsFileGo onsFolderPath outwardCode (stripDigits outwardCode) onsFiles

/-- The acceptance test _find_ons_file applies to one directory entry. -/
def onsNameAccepted (f : String) (letters : String) : Bool :=
  strStartsWith f (ONS_FOLDER_NAME ++ "_UK_") && strEndsWith f ".csv"
    && decide (lastSegment (strDropRight f 4) = letters)

/-- The exact file name of the naming convention the spec describes,
with the given letters spliced in. -/
def conventionName (letters : String) : String :=
  ONS_FOLDER_NAME ++ "_UK_" ++ letters ++ ".csv"

/-- The not-found message as the spec words it: naming the digit-stripped
outward-code letters (rather than the outward code as supplied). -/
def locatorMsgWithLetters (outwardCode onsFolderPath : String) : String :=
  "ONS file for " ++ stripDigits outwardCode ++ " couldn't be found in " ++ onsFolderPath

/-- Postcode of a row at the configured column (total; rows shorter than the
column index never qualify, and theorems about full passes assume
well-formed rows anyway). -/
def rowPostcode (row : List String) : String := row.getD pafPostcodeIdx ""

/-- Business-rule filter of _is_valid_paf_row as a total predicate on a row:
empty organisation name, postcode type "S", desired district. -/
def rowQualifies (row : List String) (desiredPostcodeDistricts : List String) : Bool :=
  decide (row.getD pafOrgNameIdx "" = "") && decide (row.getD pafPostcodeTypeIdx "" = "S")
    && isDesiredPostcodeDistrict (rowPostcode row) desiredPostcodeDistricts

/-- The postcodes of the qualifying rows, in order, with multiplicity. -/
def qualList (rows : List (List String)) (desiredPostcodeDistricts : List String) : List String :=
  (rows.filter (fun r => rowQualifies r desiredPostcodeDistricts)).map rowPostcode

/-- Number of occurrences of a string in a list. -/
def countOcc (k : String) : List String → Nat
  | [] => 0
  | x :: xs => (if x = k then 1 else 0) + countOcc k xs

/-- Number of qualifying rows bearing a given postcode. -/
def qualCount (rows : List (List String)) (desiredPostcodeDistricts : List String)
    (P : String) : Nat :=
  countOcc P (qualList rows desiredPostcodeDistricts)

/-- Total version of the coordinate lookup, used to state theorems; it agrees
with retrieveCoordsOns on well-formed coordinate rows. -/
def lookupPure (onsData : List (List String)) (postcode : String) : Option (String × String) :=
  match onsData with
  | [] => none
  | row :: rest =>
    if row.getD onsPostcodeIdx "" = postcode then
      some (row.getD onsLatitudeIdx "", row.getD onsLongitudeIdx "")
    else lookupPure rest postcode

/-- The aggregate-table entry the pipeline state should hold for a postcode
after the qualifying postcodes qs have been processed. -/
def dictSpec (onsData : List (List String)) (qs : List String) (P : String) :
    Option PostcodeData :=
  match lookupPure onsData P with
  | none => none
  | some c => if countOcc P qs = 0 then none else some ⟨countOcc P qs, c.1, c.2⟩

/-- The unlocated-table entry the pipeline state should hold for a postcode
after the qualifying postcodes qs have been processed. -/
def unlSpec (onsData : List (List String)) (qs : List String) (P : String) : Option Nat :=
  match lookupPure onsData P with
  | some _ => none
  | none => if countOcc P qs = 0 then none else some (countOcc P qs)

/-- Number of distinct strings in a list. -/
def countDistinct : List String → Nat
  | [] => 0
  | x :: xs => (if x ∈ xs then 0 else 1) + countDistinct xs

/-- Expected number of coordinate-file scans after the qualifying postcodes qs
have been processed: one per distinct located postcode plus one per
occurrence of an unlocated postcode. -/
def lookupSpecCount (onsData : List (List String)) (qs : List String) : Nat :=
  countDistinct (qs.filter (fun P => (lookupPure onsData P).isSome))
    + (qs.filter (fun P => (lookupPure onsData P).isNone)).length

/-- _update_postcode_data instrumented with a counter of coordinate-file
scans; identical to updatePostcodeData otherwise. -/
def updatePostcodeDataCounted (postcode : String)
    (postcodeOutputDict : List (String × PostcodeData)) (unlocatedPostcodes : List (String × Nat))
    (lookups : Nat) (onsData : List (List String)) :
    Except String (List (String × PostcodeData) × List (String × Nat) × Nat) :=
  if (findVal postcode postcodeOutputDict).isSome then
    .ok (postcodeOutputDict.map
          (fun e => if e.1 = postcode then (e.1, ⟨e.2.address_count + 1, e.2.latitude, e.2.longitude⟩) else e),
        unlocatedPostcodes, lookups)
  else
    (addNewPostcode postcode postcodeOutputDict unlocatedPostcodes onsData).map
      (fun acc => (acc.1, acc.2, lookups + 1))

/-- _process_paf_row instrumented with the scan counter. -/
def processPafRowCounted (row : List String) (desiredPostcodeDistricts : List String)
    (postcodeOutputDict : List (String × PostcodeData)) (unlocatedPostcodes : List (String × Nat))
    (lookups : Nat) (onsData : List (List String)) :
    Except String (List (String × PostcodeData) × List (String × Nat) × Nat) :=
  match row.get? pafPostcodeIdx with
  | none => .error "IndexError"
  | some postcode =>
    (isValidPafRow row postcode desiredPostcodeDistricts).bind fun valid =>
      if valid then
        updatePostcodeDataCounted postcode postcodeOutputDict unlocatedPostcodes lookups onsData
      else .ok (postcodeOutputDict, unlocatedPostcodes, lookups)

/-- The loop of _process_paf_file with the scan counter threaded through. -/
def processPafFileCountedFrom (rows : List (List String)) (desiredPostcodeDistricts : List String)
    (postcodeOutputDict : List (String × PostcodeData)) (unlocatedPostcodes : List (String × Nat))
    (lookups : Nat) (onsData : List (List String)) :
    Except String (List (String × PostcodeData) × List (String × Nat) × Nat) :=
  match rows with
  | [] => .ok (postcodeOutputDict, unlocatedPostcodes, lookups)
  | row :: rest =>
    (processPafRowCounted row desiredPostcodeDistricts postcodeOutputDict unlocatedPostcodes
        lookups onsData).bind
      fun acc => processPafFileCountedFrom rest desiredPostcodeDistricts acc.1 acc.2.1 acc.2.2 onsData

/-- _process_paf_file with the scan counter, from empty state. -/
def processPafFileCounted (rows : List (List String)) (desiredPostcodeDistricts : List String)
    (onsData : List (List String)) :
    Except String (List (String × PostcodeData) × List (String × Nat) × Nat) :=
  processPafFileCountedFrom rows desiredPostcodeDistricts [] [] 0 onsData

/-- Test fixture: a 14-column PAF row with the given postcode at column 0,
an empty organisation name at column 11 and postcode type "S" at column 13. -/
def mkPafRow (pc : String) : List String :=
  [pc, "", "", "", "", "", "", "", "", "", "", "", "", "S"]

/-- Test fixture: a 43-column ONS row with the given postcode at column 2,
latitude at column 41 and longitude at column 42. -/
def mkOnsRow (pc la lo : String) : List String :=
  ["", "", pc] ++ List.replicate 38 "" ++ [la, lo]

/-- Shape of a district capture: one or two characters in A-Z followed by one
or two characters in 0-9. -/
def isLDForm : List Char → Bool
  | [a, b] => isUpperAZ a && isDigit09 b
  | [a, b, c] =>
    (isUpperAZ a && isUpperAZ b && isDigit09 c) || (isUpperAZ a && isDigit09 b && isDigit09 c)
  | [a, b, c, d] => isUpperAZ a && isUpperAZ b && isDigit09 c && isDigit09 d
  | _ => false

/-! ### Association-list and counting lemmas -/

theorem findVal_append {β : Type} (l₁ l₂ : List (String × β)) (k : String) :
    findVal k (l₁ ++ l₂) = ((findVal k l₁).orElse fun _ => findVal k l₂) := by
  induction l₁ with
  | nil => simp [findVal]
  | cons e es ih => by_cases h : e.1 = k <;> simp [findVal, h, ih]

theorem findVal_map_update {β : Type} (l : List (String × β)) (f : β → β) (P k : String) :
    findVal k (l.map fun e => if e.1 = P then (e.1, f e.2) else e)
      = if k = P then (findVal P l).map f else findVal k l := by
  induction l with
  | nil => simp [findVal]
  | cons e es ih =>
    by_cases h1 : e.1 = P <;> by_cases h2 : e.1 = k
    · have hkP : k = P := h2 ▸ h1
      subst hkP
      simp [findVal, h1, h2]
    · have hkP : ¬ k = P := fun hc => h2 (hc ▸ h1)
      have hPk : ¬ P = k := fun hc => hkP hc.symm
      simp [findVal, h1, h2, ih, hkP, hPk]
    · have hkP : ¬ k = P := fun hc => h1 (h2.trans hc)
      simp [findVal, h1, h2, ih, hkP]
    · simp [findVal, h1, h2, ih]

theorem findVal_eq_none_iff {β : Type} (l : List (String × β)) (k : String) :
    findVal k l = none ↔ ∀ e ∈ l, e.1 ≠ k := by
  induction l with
  | nil => simp [findVal]
  | cons e es ih => by_cases h : e.1 = k <;> simp [findVal, h, ih]

theorem keys_map_update {β : Type} (l : List (String × β)) (f : β → β) (P : String) :
    (l.map fun e => if e.1 = P then (e.1, f e.2) else e).map Prod.fst = l.map Prod.fst := by
  induction l with
  | nil => rfl
  | cons e es ih => by_cases h : e.1 = P <;> simp [h, ih]

theorem countOcc_append (k : String) (l₁ l₂ : List String) :
    countOcc k (l₁ ++ l₂) = countOcc k l₁ + countOcc k l₂ := by
  induction l₁ with
  | nil => simp [countOcc]
  | cons x xs ih => simp [countOcc, ih]; omega

theorem countOcc_eq_zero (k : String) (l : List String) : countOcc k l = 0 ↔ k ∉ l := by
  induction l with
  | nil => simp [countOcc]
  | cons x xs ih =>
    simp only [countOcc, List.mem_cons]
    by_cases h : x = k
    · subst h
      rw [if_pos rfl]
      constructor
      · intro hc; omega
      · intro hc; exact ((hc (Or.inl rfl)).elim)
    · have h2 : ¬ k = x := fun hc => h hc.symm
      simp [h, h2, ih]

theorem countDistinct_append (l : List String) (P : String) :
    countDistinct (l ++ [P]) = countDistinct l + (if P ∈ l then 0 else 1) := by
  induction l with
  | nil => simp [countDistinct]
  | cons x xs ih =>
    rw [List.cons_append]
    show (if x ∈ xs ++ [P] then 0 else 1) + countDistinct (xs ++ [P])
        = ((if x ∈ xs then 0 else 1) + countDistinct xs) + (if P ∈ x :: xs then 0 else 1)
    rw [ih]
    by_cases hx : x ∈ xs <;> by_cases hp : P ∈ xs <;> by_cases he : x = P
    · rw [if_pos (List.mem_append.mpr (Or.inl hx)), if_pos hx, if_pos hp,
        if_pos (List.mem_cons.mpr (Or.inr hp))]
      omega
    · rw [if_pos (List.mem_append.mpr (Or.inl hx)), if_pos hx, if_pos hp,
        if_pos (List.mem_cons.mpr (Or.inr hp))]
      omega
    · exact absurd (he ▸ hx) hp
    · rw [if_pos (List.mem_append.mpr (Or.inl hx)), if_pos hx, if_neg hp,
        if_neg (fun hc => (List.mem_cons.mp hc).elim (fun h2 => he h2.symm) hp)]
      omega
    · exact absurd (he.symm ▸ hp) hx
    · rw [if_neg (fun hc => (List.mem_append.mp hc).elim hx
          (fun h2 => he (List.mem_singleton.mp h2))),
        if_neg hx, if_pos hp, if_pos (List.mem_cons.mpr (Or.inr hp))]
      omega
    · rw [if_pos (List.mem_append.mpr (Or.inr (List.mem_singleton.mpr he))),
        if_neg hx, if_neg hp, if_pos (List.mem_cons.mpr (Or.inl he.symm))]
      omega
    · rw [if_neg (fun hc => (List.mem_append.mp hc).elim hx
          (fun h2 => he (List.mem_singleton.mp h2))),
        if_neg hx, if_neg hp,
        if_neg (fun hc => (List.mem_cons.mp hc).elim (fun h2 => he h2.symm) hp)]
      omega

theorem get?_eq_some_getD (l : List String) (n : Nat) (h : n < l.length) :
    l.get? n = some (l.getD n "") := by
  cases hx : l.get? n with
  | none => exact absurd (List.get?_eq_none.mp hx) (by omega)
  | some a => simp [List.getD_eq_getElem?_getD, ← List.get?_eq_getElem?, hx]

/-! ### Agreement of the lookup with its total version, and step lemmas -/

theorem retrieveCoordsOns_eq_lookupPure (onsData : List (List String))
    (h : ∀ r ∈ onsData, 43 ≤ r.length) (P : String) :
    retrieveCoordsOns onsData P = .ok (lookupPure onsData P) := by
  induction onsData with
  | nil => rfl
  | cons row rest ih =>
    have hlen : 43 ≤ row.length := h row (List.mem_cons_self row rest)
    have h2 : row.get? onsPostcodeIdx = some (row.getD onsPostcodeIdx "") :=
      get?_eq_some_getD _ _ (by simp only [onsPostcodeIdx]; omega)
    have h41 : row.get? onsLatitudeIdx = some (row.getD onsLatitudeIdx "") :=
      get?_eq_some_getD _ _ (by simp only [onsLatitudeIdx]; omega)
    have h42 : row.get? onsLongitudeIdx = some (row.getD onsLongitudeIdx "") :=
      get?_eq_some_getD _ _ (by simp only [onsLongitudeIdx]; omega)
    by_cases hcmp : row.getD onsPostcodeIdx "" = P
    · simp only [retrieveCoordsOns, lookupPure, h2, h41, h42, hcmp, if_pos]
    · simp only [retrieveCoordsOns, lookupPure, h2, h41, h42, if_neg hcmp]
      exact ih fun r hr => h r (List.mem_cons_of_mem _ hr)

theorem processPafRowCounted_eq (row : List String) (desired : List String)
    (dict : List (String × PostcodeData)) (unl : List (String × Nat)) (k : Nat)
    (onsData : List (List String)) (h : 14 ≤ row.length) :
    processPafRowCounted row desired dict unl k onsData =
      if rowQualifies row desired then
        updatePostcodeDataCounted (rowPostcode row) dict unl k onsData
      else .ok (dict, unl, k) := by
  have h0 : row.get? pafPostcodeIdx = some (row.getD pafPostcodeIdx "") :=
    get?_eq_some_getD _ _ (by simp only [pafPostcodeIdx]; omega)
  have h11 : row.get? pafOrgNameIdx = some (row.getD pafOrgNameIdx "") :=
    get?_eq_some_getD _ _ (by simp only [pafOrgNameIdx]; omega)
  have h13 : row.get? pafPostcodeTypeIdx = some (row.getD pafPostcodeTypeIdx "") :=
    get?_eq_some_getD _ _ (by simp only [pafPostcodeTypeIdx]; omega)
  simp only [processPafRowCounted, isValidPafRow, h0, h11, h13, rowQualifies, rowPostcode,
    Except.bind]

/-! ### The instrumented pass projects onto the plain pass -/

theorem updatePostcodeDataCounted_proj (postcode : String)
    (dict : List (String × PostcodeData)) (unl : List (String × Nat)) (k : Nat)
    (onsData : List (List String)) :
    (updatePostcodeDataCounted postcode dict unl k onsData).map (fun t => (t.1, t.2.1))
      = updatePostcodeData postcode dict unl onsData := by
  unfold updatePostcodeDataCounted updatePostcodeData
  by_cases h : (findVal postcode dict).isSome
  · simp [h, Except.map]
  · simp only [h, if_neg, Bool.false_eq_true]
    cases han : addNewPostcode postcode dict unl onsData <;> simp [Except.map]

theorem processPafRowCounted_proj (row : List String) (desired : List String)
    (dict : List (String × PostcodeData)) (unl : List (String × Nat)) (k : Nat)
    (onsData : List (List String)) :
    (processPafRowCounted row desired dict unl k onsData).map (fun t => (t.1, t.2.1))
      = processPafRow row desired dict unl onsData := by
  unfold processPafRowCounted processPafRow
  cases h0 : row.get? pafPostcodeIdx with
  | none => simp [Except.map]
  | some pc =>
    cases hv : isValidPafRow row pc desired with
    | error e => simp [hv, Except.map, Except.bind]
    | ok valid =>
      cases valid
      · simp [hv, Except.bind, Except.map]
      · simp [hv, Except.bind, updatePostcodeDataCounted_proj]

theorem processPafFileCountedFrom_proj (rows : List (List String)) (desired : List String) :
    ∀ (dict : List (String × PostcodeData)) (unl : List (String × Nat)) (k : Nat)
      (onsData : List (List String)),
    (processPafFileCountedFrom rows desired dict unl k onsData).map (fun t => (t.1, t.2.1))
      = processPafFileFrom rows desired dict unl onsData := by
  induction rows with
  | nil => intros; rfl
  | cons row rest ih =>
    intro dict unl k onsData
    have hproj := processPafRowCounted_proj row desired dict unl k onsData
    cases hr : processPafRowCounted row desired dict unl k onsData with
    | error e =>
      rw [hr] at hproj
      unfold processPafFileCountedFrom processPafFileFrom
      rw [hr, ← hproj]
      simp [Except.map, Except.bind]
    | ok acc =>
      rw [hr] at hproj
      unfold processPafFileCountedFrom processPafFileFrom
      rw [hr, ← hproj]
      simp only [Except.map, Except.bind]
      exact ih acc.1 acc.2.1 acc.2.2 onsData

/-! ### Specialized association-list lemmas for the two update shapes -/

theorem findVal_bump (l : List (String × PostcodeData)) (P Q : String) :
    findVal Q (l.map fun e =>
        if e.1 = P then (e.1, ⟨e.2.address_count + 1, e.2.latitude, e.2.longitude⟩) else e)
      = if Q = P then
          (findVal P l).map (fun d => ⟨d.address_count + 1, d.latitude, d.longitude⟩)
        else findVal Q l :=
  findVal_map_update l (fun d => ⟨d.address_count + 1, d.latitude, d.longitude⟩) P Q

theorem findVal_bumpNat (l : List (String × Nat)) (P Q : String) :
    findVal Q (l.map fun e => if e.1 = P then (e.1, e.2 + 1) else e)
      = if Q = P then (findVal P l).map (fun n => n + 1) else findVal Q l :=
  findVal_map_update l (fun n => n + 1) P Q

theorem keys_bump (l : List (String × PostcodeData)) (P : String) :
    (l.map fun e =>
        if e.1 = P then (e.1, ⟨e.2.address_count + 1, e.2.latitude, e.2.longitude⟩) else e).map
        Prod.fst = l.map Prod.fst :=
  keys_map_update l (fun d => ⟨d.address_count + 1, d.latitude, d.longitude⟩) P

theorem keys_bumpNat (l : List (String × Nat)) (P : String) :
    (l.map fun e => if e.1 = P then (e.1, e.2 + 1) else e).map Prod.fst = l.map Prod.fst :=
  keys_map_update l (fun n => n + 1) P

theorem nodup_keys_append {β : Type} (l : List (String × β)) (P : String) (v : β)
    (hn : (l.map Prod.fst).Nodup) (hf : findVal P l = none) :
    ((l ++ [(P, v)]).map Prod.fst).Nodup := by
  rw [List.map_append]
  refine List.Nodup.append hn (by simp) ?_
  intro a ha hb
  simp only [List.map_cons, List.map_nil, List.mem_singleton] at hb
  obtain ⟨e, he, hfst⟩ := List.mem_map.mp ha
  exact (findVal_eq_none_iff l P).mp hf e he (hfst.trans hb)

theorem findVal_singleton {β : Type} (P Q : String) (v : β) :
    findVal Q [(P, v)] = if P = Q then some v else none := by
  by_cases h : P = Q <;> simp [findVal, h]

/-! ### How the specification tables evolve when one qualifying postcode arrives -/

theorem countOcc_append_self (qs : List String) (P : String) :
    countOcc P (qs ++ [P]) = countOcc P qs + 1 := by
  simp [countOcc_append, countOcc]

theorem countOcc_append_ne (qs : List String) (P Q : String) (h : ¬ P = Q) :
    countOcc Q (qs ++ [P]) = countOcc Q qs := by
  simp [countOcc_append, countOcc, h]

theorem dictSpec_append_ne (onsData : List (List String)) (qs : List String) (P Q : String)
    (h : ¬ Q = P) : dictSpec onsData (qs ++ [P]) Q = dictSpec onsData qs Q := by
  have hPQ : ¬ P = Q := fun hc => h hc.symm
  unfold dictSpec
  rw [countOcc_append_ne qs P Q hPQ]

theorem unlSpec_append_ne (onsData : List (List String)) (qs : List String) (P Q : String)
    (h : ¬ Q = P) : unlSpec onsData (qs ++ [P]) Q = unlSpec onsData qs Q := by
  have hPQ : ¬ P = Q := fun hc => h hc.symm
  unfold unlSpec
  rw [countOcc_append_ne qs P Q hPQ]

theorem lookupSpecCount_append (onsData : List (List String)) (qs : List String) (P : String) :
    lookupSpecCount onsData (qs ++ [P]) =
      lookupSpecCount onsData qs +
        (match lookupPure onsData P with
         | some _ => if P ∈ qs then 0 else 1
         | none => 1) := by
  unfold lookupSpecCount
  rw [List.filter_append, List.filter_append]
  cases hlp : lookupPure onsData P with
  | some c =>
    have hf1 : List.filter (fun Q => (lookupPure onsData Q).isSome) [P] = [P] := by
      simp [List.filter, hlp]
    have hf2 : List.filter (fun Q => (lookupPure onsData Q).isNone) [P] = [] := by
      simp [List.filter, hlp]
    rw [hf1, hf2, List.append_nil, countDistinct_append]
    by_cases hin : P ∈ qs
    · rw [if_pos (List.mem_filter.mpr ⟨hin, by simp [hlp]⟩), if_pos hin]
      simp
    · rw [if_neg (fun hc => hin (List.mem_filter.mp hc).1), if_neg hin]
      simp only []
      omega
  | none =>
    have hf1 : List.filter (fun Q => (lookupPure onsData Q).isSome) [P] = [] := by
      simp [List.filter, hlp]
    have hf2 : List.filter (fun Q => (lookupPure onsData Q).isNone) [P] = [P] := by
      simp [List.filter, hlp]
    rw [hf1, hf2, List.append_nil, List.length_append]
    simp only [List.length_singleton]
    omega

theorem updateCounted_spec (onsData : List (List String))
    (hons : ∀ r ∈ onsData, 43 ≤ r.length) (qs : List String) (P : String)
    (dict : List (String × PostcodeData)) (unl : List (String × Nat)) (k : Nat)
    (hD : ∀ Q, findVal Q dict = dictSpec onsData qs Q)
    (hU : ∀ Q, findVal Q unl = unlSpec onsData qs Q)
    (hDn : (dict.map Prod.fst).Nodup) (hUn : (unl.map Prod.fst).Nodup)
    (hk : k = lookupSpecCount onsData qs) :
    ∃ dict' unl' k', updatePostcodeDataCounted P dict unl k onsData = .ok (dict', unl', k') ∧
      (∀ Q, findVal Q dict' = dictSpec onsData (qs ++ [P]) Q) ∧
      (∀ Q, findVal Q unl' = unlSpec onsData (qs ++ [P]) Q) ∧
      (dict'.map Prod.fst).Nodup ∧ (unl'.map Prod.fst).Nodup ∧
      k' = lookupSpecCount onsData (qs ++ [P]) := by
  cases hlp : lookupPure onsData P with
  | some c =>
    by_cases hc0 : countOcc P qs = 0
    · -- first qualifying occurrence of a located postcode: a fresh entry is appended
      have hfd : findVal P dict = none := by rw [hD P]; simp [dictSpec, hlp, hc0]
      have hnotin : P ∉ qs := (countOcc_eq_zero P qs).mp hc0
      refine ⟨dict ++ [(P, ⟨1, c.1, c.2⟩)], unl, k + 1, ?_, ?_, ?_, ?_, hUn, ?_⟩
      · unfold updatePostcodeDataCounted
        rw [hfd]
        simp only [Option.isSome_none, Bool.false_eq_true, if_false]
        unfold addNewPostcode
        rw [retrieveCoordsOns_eq_lookupPure onsData hons P, hlp]
        rfl
      · intro Q
        rw [findVal_append]
        by_cases hQ : Q = P
        · subst hQ
          rw [hfd, findVal_singleton]
          simp [dictSpec, hlp, countOcc_append_self, hc0]
        · rw [findVal_singleton, if_neg (fun hc => hQ hc.symm), dictSpec_append_ne _ _ _ _ hQ,
            ← hD Q]
          cases findVal Q dict <;> rfl
      · intro Q
        by_cases hQ : Q = P
        · subst hQ
          rw [hU Q]
          simp [unlSpec, hlp]
        · rw [unlSpec_append_ne _ _ _ _ hQ, hU Q]
      · exact nodup_keys_append dict P _ hDn hfd
      · rw [hk, lookupSpecCount_append, hlp]
        simp [hnotin]
    · -- the postcode is already in the table: its count is bumped in place
      have hin : P ∈ qs := by
        by_contra hc
        exact hc0 ((countOcc_eq_zero P qs).mpr hc)
      have hfd : findVal P dict = some ⟨countOcc P qs, c.1, c.2⟩ := by
        rw [hD P]; simp [dictSpec, hlp, hc0]
      refine ⟨dict.map fun e =>
          if e.1 = P then (e.1, ⟨e.2.address_count + 1, e.2.latitude, e.2.longitude⟩) else e,
        unl, k, ?_, ?_, ?_, ?_, hUn, ?_⟩
      · unfold updatePostcodeDataCounted
        rw [hfd]
        rfl
      · intro Q
        rw [findVal_bump]
        by_cases hQ : Q = P
        · subst hQ
          rw [if_pos rfl, hfd]
          simp [dictSpec, hlp, countOcc_append_self]
        · rw [if_neg hQ, dictSpec_append_ne _ _ _ _ hQ, hD Q]
      · intro Q
        by_cases hQ : Q = P
        · subst hQ
          rw [hU Q]
          simp [unlSpec, hlp]
        · rw [unlSpec_append_ne _ _ _ _ hQ, hU Q]
      · rw [keys_bump]; exact hDn
      · rw [hk, lookupSpecCount_append, hlp]
        simp [hin]
  | none =>
    -- unlocated postcode: the aggregate table is untouched, the counter is bumped
    have hfd : findVal P dict = none := by rw [hD P]; simp [dictSpec, hlp]
    have hstep : updatePostcodeDataCounted P dict unl k onsData
        = .ok (dict, addToUnlocatedPostcodes P unl, k + 1) := by
      unfold updatePostcodeDataCounted
      rw [hfd]
      simp only [Option.isSome_none, Bool.false_eq_true, if_false]
      unfold addNewPostcode
      rw [retrieveCoordsOns_eq_lookupPure onsData hons P, hlp]
      rfl
    have hDgoal : ∀ Q, findVal Q dict = dictSpec onsData (qs ++ [P]) Q := by
      intro Q
      by_cases hQ : Q = P
      · subst hQ
        rw [hfd]
        simp [dictSpec, hlp]
      · rw [dictSpec_append_ne _ _ _ _ hQ, hD Q]
    have hkgoal : k + 1 = lookupSpecCount onsData (qs ++ [P]) := by
      rw [hk, lookupSpecCount_append, hlp]
    by_cases hc0 : countOcc P qs = 0
    · have hfu : findVal P unl = none := by rw [hU P]; simp [unlSpec, hlp, hc0]
      have hunl : addToUnlocatedPostcodes P unl = unl ++ [(P, 1)] := by
        unfold addToUnlocatedPostcodes
        rw [hfu]
        rfl
      refine ⟨dict, unl ++ [(P, 1)], k + 1, by rw [hstep, hunl], hDgoal, ?_, hDn, ?_, hkgoal⟩
      · intro Q
        rw [findVal_append]
        by_cases hQ : Q = P
        · subst hQ
          rw [hfu, findVal_singleton]
          simp [unlSpec, hlp, countOcc_append_self, hc0]
        · rw [findVal_singleton, if_neg (fun hc => hQ hc.symm), unlSpec_append_ne _ _ _ _ hQ,
            ← hU Q]
          cases findVal Q unl <;> rfl
      · exact nodup_keys_append unl P 1 hUn hfu
    · have hfu : findVal P unl = some (countOcc P qs) := by
        rw [hU P]; simp [unlSpec, hlp, hc0]
      have hunl : addToUnlocatedPostcodes P unl
          = unl.map fun e => if e.1 = P then (e.1, e.2 + 1) else e := by
        unfold addToUnlocatedPostcodes
        rw [hfu]
        rfl
      refine ⟨dict, _, k + 1, by rw [hstep, hunl], hDgoal, ?_, hDn, ?_, hkgoal⟩
      · intro Q
        rw [findVal_bumpNat]
        by_cases hQ : Q = P
        · subst hQ
          rw [if_pos rfl, hfu]
          simp [unlSpec, hlp, countOcc_append_self]
        · rw [if_neg hQ, unlSpec_append_ne _ _ _ _ hQ, hU Q]
      · rw [keys_bumpNat]; exact hUn

/-! ### Master characterization of the aggregation pass -/

theorem qualList_cons (row : List String) (rest : List (List String)) (desired : List String) :
    qualList (row :: rest) desired
      = (if rowQualifies row desired then [rowPostcode row] else []) ++ qualList rest desired := by
  by_cases hq : rowQualifies row desired <;> simp [qualList, List.filter, hq]

theorem processInv (onsData : List (List String)) (desired : List String)
    (hons : ∀ r ∈ onsData, 43 ≤ r.length) :
    ∀ (rows : List (List String)), (∀ r ∈ rows, 14 ≤ r.length) →
    ∀ (qs : List String) (dict : List (String × PostcodeData)) (unl : List (String × Nat))
      (k : Nat),
    (∀ P, findVal P dict = dictSpec onsData qs P) →
    (∀ P, findVal P unl = unlSpec onsData qs P) →
    (dict.map Prod.fst).Nodup → (unl.map Prod.fst).Nodup →
    k = lookupSpecCount onsData qs →
    ∃ D U K, processPafFileCountedFrom rows desired dict unl k onsData = .ok (D, U, K) ∧
      (∀ P, findVal P D = dictSpec onsData (qs ++ qualList rows desired) P) ∧
      (∀ P, findVal P U = unlSpec onsData (qs ++ qualList rows desired) P) ∧
      (D.map Prod.fst).Nodup ∧ (U.map Prod.fst).Nodup ∧
      K = lookupSpecCount onsData (qs ++ qualList rows desired) := by
  intro rows
  induction rows with
  | nil =>
    intro _ qs dict unl k hD hU hDn hUn hk
    refine ⟨dict, unl, k, rfl, ?_, ?_, hDn, hUn, ?_⟩
    · simpa [qualList] using hD
    · simpa [qualList] using hU
    · simpa [qualList] using hk
  | cons row rest ih =>
    intro hrows qs dict unl k hD hU hDn hUn hk
    have hrow : 14 ≤ row.length := hrows row (List.mem_cons_self _ _)
    have hrest : ∀ r ∈ rest, 14 ≤ r.length := fun r hr => hrows r (List.mem_cons_of_mem _ hr)
    by_cases hq : rowQualifies row desired
    · obtain ⟨dict', unl', k', hstep, hD', hU', hDn', hUn', hk'⟩ :=
        updateCounted_spec onsData hons qs (rowPostcode row) dict unl k hD hU hDn hUn hk
      obtain ⟨D, U, K, hrun, hDf, hUf, hDnf, hUnf, hkf⟩ :=
        ih hrest (qs ++ [rowPostcode row]) dict' unl' k' hD' hU' hDn' hUn' hk'
      refine ⟨D, U, K, ?_, ?_, ?_, hDnf, hUnf, ?_⟩
      · show (processPafRowCounted row desired dict unl k onsData).bind _ = _
        rw [processPafRowCounted_eq row desired dict unl k onsData hrow, if_pos hq, hstep]
        exact hrun
      · intro P
        rw [hDf P, qualList_cons, if_pos hq]
        rw [← List.append_assoc]
      · intro P
        rw [hUf P, qualList_cons, if_pos hq]
        rw [← List.append_assoc]
      · rw [hkf, qualList_cons, if_pos hq, ← List.append_assoc]
    · obtain ⟨D, U, K, hrun, hDf, hUf, hDnf, hUnf, hkf⟩ :=
        ih hrest qs dict unl k hD hU hDn hUn hk
      refine ⟨D, U, K, ?_, ?_, ?_, hDnf, hUnf, ?_⟩
      · show (processPafRowCounted row desired dict unl k onsData).bind _ = _
        rw [processPafRowCounted_eq row desired dict unl k onsData hrow, if_neg hq]
        exact hrun
      · intro P
        rw [hDf P, qualList_cons, if_neg hq, List.nil_append]
      · intro P
        rw [hUf P, qualList_cons, if_neg hq, List.nil_append]
      · rw [hkf, qualList_cons, if_neg hq, List.nil_append]

/-- Full-run characterization: on well-formed inputs the pass succeeds, the
instrumented pass agrees with the plain one, and both tables are exactly
described by dictSpec/unlSpec over the qualifying postcodes. -/
theorem processPafFile_spec (rows : List (List String)) (desired : List String)
    (onsData : List (List String)) (hrows : ∀ r ∈ rows, 14 ≤ r.length)
    (hons : ∀ r ∈ onsData, 43 ≤ r.length) :
    ∃ D U K, processPafFileCounted rows desired onsData = .ok (D, U, K) ∧
      processPafFile rows desired onsData = .ok (D, U) ∧
      (∀ P, findVal P D = dictSpec onsData (qualList rows desired) P) ∧
      (∀ P, findVal P U = unlSpec onsData (qualList rows desired) P) ∧
      (D.map Prod.fst).Nodup ∧ (U.map Prod.fst).Nodup ∧
      K = lookupSpecCount onsData (qualList rows desired) := by
  obtain ⟨D, U, K, hrun, hDf, hUf, hDn, hUn, hkf⟩ :=
    processInv onsData desired hons rows hrows [] [] [] 0
      (fun P => by simp [findVal, dictSpec]; cases lookupPure onsData P <;> simp [countOcc])
      (fun P => by simp [findVal, unlSpec]; cases lookupPure onsData P <;> simp [countOcc])
      (by simp) (by simp) (by simp [lookupSpecCount, countDistinct])
  have hplain : processPafFile rows desired onsData = .ok (D, U) := by
    have hproj := processPafFileCountedFrom_proj rows desired [] [] 0 onsData
    rw [hrun] at hproj
    exact hproj.symm
  refine ⟨D, U, K, hrun, hplain, ?_, ?_, hDn, hUn, ?_⟩
  · intro P; simpa using hDf P
  · intro P; simpa using hUf P
  · simpa using hkf

/-! ### Claim C2 -/

/-- Claim C2, counterexample: with the row layout the claim specifies
(postcode text at index 11, "S" at index 12, trailing blank), the code reads
the postcode from column 0 (empty) and the organisation name from column 11
("BT11AA", non-empty), so no row qualifies, the aggregate is empty and the
CSV output is just the header: it does not contain the claimed row. -/
theorem scenario_bt1_claimed_layout_fails :
    processPafFile
        (List.replicate 3 ["", "", "", "", "", "", "", "", "", "", "", "BT11AA", "S", ""])
        ["BT1"] [["BT1 1AA", "54.1", "-6.2"]]
      = .ok ([], []) ∧
    csvOutput [] = [["postcode", "address count", "latitude", "longitude"]] ∧
    ["BT1 1AA", "3", "54.1", "-6.2"] ∉ csvOutput [] :=
  ⟨rfl, rfl, by decide⟩

/-- Claim C2 as amended: the scenario holds once the fields sit at the columns
the code actually reads (postcode at 0, organisation name empty at 11, type
"S" at 13; coordinate row with the postcode at column 2, latitude at 41 and
longitude at 42): three identical rows for BT1 1AA yield the CSV data row
BT1 1AA,3,54.1,-6.2. -/
theorem scenario_bt1_actual_layout :
    processPafFile (List.replicate 3 (mkPafRow "BT1 1AA")) ["BT1"]
        [mkOnsRow "BT1 1AA" "54.1" "-6.2"]
      = .ok ([("BT1 1AA", ⟨3, "54.1", "-6.2"⟩)], []) ∧
    csvOutput [("BT1 1AA", ⟨3, "54.1", "-6.2"⟩)]
      = [["postcode", "address count", "latitude", "longitude"],
         ["BT1 1AA", "3", "54.1", "-6.2"]] ∧
    ["BT1 1AA", "3", "54.1", "-6.2"] ∈ csvOutput [("BT1 1AA", ⟨3, "54.1", "-6.2"⟩)] :=
  ⟨rfl, rfl, by decide⟩

/-! ### Claim C3 -/

/-- Claim C3, counterexample: trimming applies the district filter to the
first row like any other, so a header row whose postcode column does not
match a desired district is dropped, not preserved; and the coordinate lookup
does not skip the first row of the file — it happily matches it. -/
theorem header_row_not_preserved_counterexample :
    trimFile [["pcd", "lat", "Postcode"]] ["BT1"] onsPostcodeIdx = .ok [] ∧
    retrieveCoordsOns [mkOnsRow "BT1 1AA" "54.1" "-6.2"] "BT1 1AA"
      = .ok (some ("54.1", "-6.2")) :=
  ⟨rfl, rfl⟩

/-! ### Claim C8 -/

/-- Claim C8 as amended: a row lacking an expected column makes the whole
aggregation pass abort with an index error (the reference code raises rather
than skip-and-log), regardless of the rows that follow or the state built so
far. -/
theorem short_row_aborts_pass (row : List String) (rest : List (List String))
    (desired : List String) (dict : List (String × PostcodeData))
    (unl : List (String × Nat)) (onsData : List (List String)) (h : row.length < 14) :
    processPafFileFrom (row :: rest) desired dict unl onsData = .error "IndexError" := by
  have hrow : processPafRow row desired dict unl onsData = .error "IndexError" := by
    unfold processPafRow
    cases h0 : row.get? pafPostcodeIdx with
    | none => rfl
    | some pc =>
      have h13 : row.get? pafPostcodeTypeIdx = none :=
        List.get?_eq_none.mpr (by simp only [pafPostcodeTypeIdx]; omega)
      unfold isValidPafRow
      rw [h13]
      cases row.get? pafOrgNameIdx <;> rfl
  unfold processPafFileFrom
  rw [hrow]
  rfl

/-- Claim C8, witness for the amended theorem: a one-field row aborts the
pass. -/
theorem short_row_aborts_pass_witness :
    processPafFileFrom [["BT1 1AA"]] ["BT1"] [] [] [] = .error "IndexError" :=
  short_row_aborts_pass ["BT1 1AA"] [] ["BT1"] [] [] [] (by decide)

/-- Claim C8, counterexample: the claim says a malformed row is skipped and
processing continues; on a one-field row the pass instead returns an error
and produces no result at all. -/
theorem malformed_row_aborts_counterexample :
    processPafFile [["BT1 1AA"]] ["BT1"] [] = .error "IndexError" ∧
    ¬ ∃ D U, processPafFile [["BT1 1AA"]] ["BT1"] [] = .ok (D, U) := by
  refine ⟨rfl, ?_⟩
  rintro ⟨D, U, h⟩
  rw [show processPafFile [["BT1 1AA"]] ["BT1"] [] = .error "IndexError" from rfl] at h
  exact Except.noConfusion h

/-! ### Claim C4 -/

/-- Claim C4, counterexample: two identical qualifying rows whose postcode is
absent from the coordinate file trigger two coordinate-file scans, although
there is only one distinct qualifying postcode — the lookup count exceeds the
number of distinct qualifying postcodes. -/
theorem lookup_per_distinct_postcode_counterexample :
    processPafFileCounted (List.replicate 2 (mkPafRow "BT1 1AA")) ["BT1"] []
      = .ok ([], [("BT1 1AA", 2)], 2) ∧
    countDistinct (qualList (List.replicate 2 (mkPafRow "BT1 1AA")) ["BT1"]) = 1 ∧
    (2 : Nat) ≠ 1 :=
  ⟨rfl, rfl, by decide⟩

/-- Claim C4 as amended: a lookup happens exactly on each qualifying row
whose postcode is not yet in the aggregate table, so the total number of
coordinate-file scans is the number of distinct located qualifying postcodes
plus the number of qualifying rows bearing unlocated postcodes (for a located
postcode that is exactly one scan, on its first occurrence). -/
theorem lookup_count_characterization (rows : List (List String)) (desired : List String)
    (onsData : List (List String)) (hrows : ∀ r ∈ rows, 14 ≤ r.length)
    (hons : ∀ r ∈ onsData, 43 ≤ r.length) :
    ∃ D U K, processPafFileCounted rows desired onsData = .ok (D, U, K) ∧
      K = countDistinct ((qualList rows desired).filter
            (fun P => (lookupPure onsData P).isSome))
          + ((qualList rows desired).filter (fun P => (lookupPure onsData P).isNone)).length := by
  obtain ⟨D, U, K, hrun, _, _, _, _, _, hK⟩ :=
    processPafFile_spec rows desired onsData hrows hons
  exact ⟨D, U, K, hrun, hK⟩

/-- Claim C4, witness for the amended theorem: one located postcode twice and
one unlocated postcode twice give 1 + 2 = 3 scans. -/
theorem lookup_count_characterization_witness :
    ∃ D U K,
      processPafFileCounted
          [mkPafRow "BT1 1AA", mkPafRow "BT2 2BB", mkPafRow "BT1 1AA", mkPafRow "BT2 2BB"]
          ["BT1", "BT2"] [mkOnsRow "BT1 1AA" "54.1" "-6.2"] = .ok (D, U, K) ∧
      K = countDistinct ((qualList
              [mkPafRow "BT1 1AA", mkPafRow "BT2 2BB", mkPafRow "BT1 1AA", mkPafRow "BT2 2BB"]
              ["BT1", "BT2"]).filter
            (fun P => (lookupPure [mkOnsRow "BT1 1AA" "54.1" "-6.2"] P).isSome))
          + ((qualList
              [mkPafRow "BT1 1AA", mkPafRow "BT2 2BB", mkPafRow "BT1 1AA", mkPafRow "BT2 2BB"]
              ["BT1", "BT2"]).filter
            (fun P => (lookupPure [mkOnsRow "BT1 1AA" "54.1" "-6.2"] P).isNone)).length :=
  lookup_count_characterization
    [mkPafRow "BT1 1AA", mkPafRow "BT2 2BB", mkPafRow "BT1 1AA", mkPafRow "BT2 2BB"]
    ["BT1", "BT2"] [mkOnsRow "BT1 1AA" "54.1" "-6.2"] (by decide) (by decide)

/-! ### Claim C1 -/

/-- Claim C1: for a postcode in a desired district with a coordinate row, if
it occurs N times (N at least 1) among qualifying address rows (empty
organisation name, type "S", desired district), the aggregate maps it to an
entry whose address_count is N and whose latitude/longitude come from the
coordinate lookup. -/
theorem paf_aggregate_count_correct (rows : List (List String)) (desired : List String)
    (onsData : List (List String)) (P la lo : String)
    (hrows : ∀ r ∈ rows, 14 ≤ r.length) (hons : ∀ r ∈ onsData, 43 ≤ r.length)
    (hfound : lookupPure onsData P = some (la, lo))
    (hN : 1 ≤ qualCount rows desired P) :
    ∃ D U, processPafFile rows desired onsData = .ok (D, U) ∧
      findVal P D = some ⟨qualCount rows desired P, la, lo⟩ := by
  obtain ⟨D, U, K, _, hplain, hDf, _, _, _, _⟩ :=
    processPafFile_spec rows desired onsData hrows hons
  refine ⟨D, U, hplain, ?_⟩
  rw [hDf P]
  have hne : ¬ countOcc P (qualList rows desired) = 0 := by
    unfold qualCount at hN; omega
  simp [dictSpec, hfound, hne]
  rfl

/-- Claim C1, witness: three qualifying rows for CV5 6AB with its coordinate
row present give an entry with count 3 and those coordinates. -/
theorem paf_aggregate_count_correct_witness :
    ∃ D U,
      processPafFile (List.replicate 3 (mkPafRow "CV5 6AB")) ["CV5"]
          [mkOnsRow "CV5 6AB" "52.4" "-1.5"] = .ok (D, U) ∧
      findVal "CV5 6AB" D
        = some ⟨qualCount (List.replicate 3 (mkPafRow "CV5 6AB")) ["CV5"] "CV5 6AB",
            "52.4", "-1.5"⟩ :=
  paf_aggregate_count_correct (List.replicate 3 (mkPafRow "CV5 6AB")) ["CV5"]
    [mkOnsRow "CV5 6AB" "52.4" "-1.5"] "CV5 6AB" "52.4" "-1.5"
    (by decide) (by decide) (by rfl) (by decide)

/-! ### Claim C5 -/

/-- Claim C5: after processing any row sequence the aggregate table has
pairwise-distinct postcode keys, every entry counts exactly the qualifying
rows bearing its postcode (hence is at least 1), and a postcode whose lookup
fails never appears in the aggregate table, being tracked in the unlocated
table instead. -/
theorem aggregate_table_invariants (rows : List (List String)) (desired : List String)
    (onsData : List (List String)) (hrows : ∀ r ∈ rows, 14 ≤ r.length)
    (hons : ∀ r ∈ onsData, 43 ≤ r.length) :
    ∃ D U, processPafFile rows desired onsData = .ok (D, U) ∧
      (D.map Prod.fst).Nodup ∧
      (∀ P pd, findVal P D = some pd →
        pd.address_count = qualCount rows desired P ∧ 1 ≤ pd.address_count) ∧
      (∀ P, lookupPure onsData P = none →
        findVal P D = none ∧
          (1 ≤ qualCount rows desired P →
            findVal P U = some (qualCount rows desired P))) := by
  obtain ⟨D, U, K, _, hplain, hDf, hUf, hDn, hUn, _⟩ :=
    processPafFile_spec rows desired onsData hrows hons
  refine ⟨D, U, hplain, hDn, ?_, ?_⟩
  · intro P pd h
    cases hlp : lookupPure onsData P with
    | none =>
      have hnone : findVal P D = none := by rw [hDf P]; simp [dictSpec, hlp]
      rw [h] at hnone
      exact Option.noConfusion hnone
    | some c =>
      by_cases hc0 : countOcc P (qualList rows desired) = 0
      · have hnone : findVal P D = none := by rw [hDf P]; simp [dictSpec, hlp, hc0]
        rw [h] at hnone
        exact Option.noConfusion hnone
      · have h2 : findVal P D = some ⟨countOcc P (qualList rows desired), c.1, c.2⟩ := by
          rw [hDf P]; simp [dictSpec, hlp, hc0]
        rw [h] at h2
        rw [Option.some.inj h2]
        refine ⟨rfl, ?_⟩
        show 1 ≤ countOcc P (qualList rows desired)
        omega
  · intro P hlp
    constructor
    · rw [hDf P]; simp [dictSpec, hlp]
    · intro hq
      have hne : ¬ countOcc P (qualList rows desired) = 0 := by
        unfold qualCount at hq; omega
      rw [hUf P]
      simp [unlSpec, hlp, hne]
      rfl

/-- Claim C5, witness: one located and one unlocated postcode. -/
theorem aggregate_table_invariants_witness :
    ∃ D U,
      processPafFile [mkPafRow "AB1 2CD", mkPafRow "AB9 9ZZ"] ["AB1", "AB9"]
          [mkOnsRow "AB1 2CD" "57.1" "-2.1"] = .ok (D, U) ∧
      (D.map Prod.fst).Nodup ∧
      (∀ P pd, findVal P D = some pd →
        pd.address_count
            = qualCount [mkPafRow "AB1 2CD", mkPafRow "AB9 9ZZ"] ["AB1", "AB9"] P ∧
          1 ≤ pd.address_count) ∧
      (∀ P, lookupPure [mkOnsRow "AB1 2CD" "57.1" "-2.1"] P = none →
        findVal P D = none ∧
          (1 ≤ qualCount [mkPafRow "AB1 2CD", mkPafRow "AB9 9ZZ"] ["AB1", "AB9"] P →
            findVal P U
              = some (qualCount [mkPafRow "AB1 2CD", mkPafRow "AB9 9ZZ"] ["AB1", "AB9"] P))) :=
  aggregate_table_invariants [mkPafRow "AB1 2CD", mkPafRow "AB9 9ZZ"] ["AB1", "AB9"]
    [mkOnsRow "AB1 2CD" "57.1" "-2.1"] (by decide) (by decide)

/-! ### Claim C6 -/

/-- Claim C6: a qualifying postcode absent from the coordinate file appears in
neither the CSV rows nor the KML placemarks, and its unlocated counter equals
the number of qualifying rows bearing it. -/
theorem unlocated_excluded_and_counted (rows : List (List String)) (desired : List String)
    (onsData : List (List String)) (P : String)
    (hrows : ∀ r ∈ rows, 14 ≤ r.length) (hons : ∀ r ∈ onsData, 43 ≤ r.length)
    (habs : lookupPure onsData P = none) (hq : 1 ≤ qualCount rows desired P) :
    ∃ D U, processPafFile rows desired onsData = .ok (D, U) ∧
      (∀ r ∈ csvOutput D, r.getD 0 "" ≠ P) ∧
      (∀ pm ∈ kmlOutput D, pm.1 ≠ P) ∧
      findVal P U = some (qualCount rows desired P) := by
  obtain ⟨D, U, K, _, hplain, hDf, hUf, _, _, _⟩ :=
    processPafFile_spec rows desired onsData hrows hons
  have hDnone : findVal P D = none := by rw [hDf P]; simp [dictSpec, habs]
  have hkeys : ∀ e ∈ D, e.1 ≠ P := (findVal_eq_none_iff D P).mp hDnone
  have hne : ¬ countOcc P (qualList rows desired) = 0 := by
    unfold qualCount at hq; omega
  have hmem : P ∈ qualList rows desired := by
    by_contra hc
    exact hne ((countOcc_eq_zero _ _).mpr hc)
  have hdes : isDesiredPostcodeDistrict P desired = true := by
    obtain ⟨r, hr, hrp⟩ := List.mem_map.mp hmem
    have hrq := (List.mem_filter.mp hr).2
    unfold rowQualifies at hrq
    simp only [Bool.and_eq_true] at hrq
    rw [← hrp]
    exact hrq.2
  have hPpc : P ≠ "postcode" := by
    intro hc
    rw [hc] at hdes
    have hnone : districtMatch "postcode" = none := by decide
    unfold isDesiredPostcodeDistrict at hdes
    rw [hnone] at hdes
    exact Bool.false_ne_true hdes
  refine ⟨D, U, hplain, ?_, ?_, ?_⟩
  · intro r hr
    unfold csvOutput at hr
    rcases List.mem_cons.mp hr with hhead | htail
    · rw [hhead]
      simp only [List.getD]
      exact fun hc => hPpc (by simpa using hc.symm)
    · obtain ⟨e, he, hre⟩ := List.mem_map.mp htail
      rw [← hre]
      simpa using hkeys e he
  · intro pm hpm
    obtain ⟨e, he, hpe⟩ := List.mem_map.mp hpm
    rw [← hpe]
    exact hkeys e he
  · rw [hUf P]
    simp [unlSpec, habs, hne]
    rfl

/-- Claim C6, witness: a qualifying CV1 2AB with an empty coordinate file. -/
theorem unlocated_excluded_and_counted_witness :
    ∃ D U, processPafFile [mkPafRow "CV1 2AB"] ["CV1"] [] = .ok (D, U) ∧
      (∀ r ∈ csvOutput D, r.getD 0 "" ≠ "CV1 2AB") ∧
      (∀ pm ∈ kmlOutput D, pm.1 ≠ "CV1 2AB") ∧
      findVal "CV1 2AB" U = some (qualCount [mkPafRow "CV1 2AB"] ["CV1"] "CV1 2AB") :=
  unlocated_excluded_and_counted [mkPafRow "CV1 2AB"] ["CV1"] [] "CV1 2AB"
    (by decide) (by decide) (by rfl) (by decide)

/-! ### Claim C7 -/

theorem countOcc_perm (k : String) {l l' : List String} (h : l.Perm l') :
    countOcc k l = countOcc k l' := by
  induction h with
  | nil => rfl
  | cons x _ ih => simp [countOcc, ih]
  | swap x y l => simp [countOcc]; omega
  | trans _ _ ih1 ih2 => exact ih1.trans ih2

/-- Claim C7, counterexample: the serialized CSV output is not
order-independent — swapping two address rows permutes the data rows of the
CSV file, because rows are written in first-occurrence order. -/
theorem output_order_dependent_counterexample :
    processPafFile [mkPafRow "BT1 1AA", mkPafRow "BT2 2BB"] ["BT1", "BT2"]
        [mkOnsRow "BT1 1AA" "54.1" "-6.2", mkOnsRow "BT2 2BB" "54.2" "-6.3"]
      = .ok ([("BT1 1AA", ⟨1, "54.1", "-6.2"⟩), ("BT2 2BB", ⟨1, "54.2", "-6.3"⟩)], []) ∧
    processPafFile [mkPafRow "BT2 2BB", mkPafRow "BT1 1AA"] ["BT1", "BT2"]
        [mkOnsRow "BT1 1AA" "54.1" "-6.2", mkOnsRow "BT2 2BB" "54.2" "-6.3"]
      = .ok ([("BT2 2BB", ⟨1, "54.2", "-6.3"⟩), ("BT1 1AA", ⟨1, "54.1", "-6.2"⟩)], []) ∧
    [mkPafRow "BT2 2BB", mkPafRow "BT1 1AA"].Perm [mkPafRow "BT1 1AA", mkPafRow "BT2 2BB"] ∧
    csvOutput [("BT1 1AA", ⟨1, "54.1", "-6.2"⟩), ("BT2 2BB", ⟨1, "54.2", "-6.3"⟩)]
      ≠ csvOutput [("BT2 2BB", ⟨1, "54.2", "-6.3"⟩), ("BT1 1AA", ⟨1, "54.1", "-6.2"⟩)] :=
  ⟨rfl, rfl, by decide, by decide⟩

/-- Claim C7 as amended: the aggregate table, read as a mapping from postcode
to entry, and the unlocated table are invariant under any permutation of the
address rows (lookups are deterministic for a fixed coordinate file); only
the insertion order — and hence the serialized row order — can change. -/
theorem aggregate_mapping_perm_invariant (rows rows' : List (List String))
    (desired : List String) (onsData : List (List String)) (hperm : rows.Perm rows')
    (hrows : ∀ r ∈ rows, 14 ≤ r.length) (hons : ∀ r ∈ onsData, 43 ≤ r.length) :
    ∃ D U D' U', processPafFile rows desired onsData = .ok (D, U) ∧
      processPafFile rows' desired onsData = .ok (D', U') ∧
      (∀ P, findVal P D = findVal P D') ∧ (∀ P, findVal P U = findVal P U') := by
  have hrows' : ∀ r ∈ rows', 14 ≤ r.length := fun r hr => hrows r (hperm.mem_iff.mpr hr)
  obtain ⟨D, U, K, _, hplain, hDf, hUf, _, _, _⟩ :=
    processPafFile_spec rows desired onsData hrows hons
  obtain ⟨D', U', K', _, hplain', hDf', hUf', _, _, _⟩ :=
    processPafFile_spec rows' desired onsData hrows' hons
  have hq : ∀ P, countOcc P (qualList rows desired) = countOcc P (qualList rows' desired) :=
    fun P => countOcc_perm P ((hperm.filter _).map _)
  refine ⟨D, U, D', U', hplain, hplain', ?_, ?_⟩
  · intro P
    rw [hDf P, hDf' P]
    unfold dictSpec
    rw [hq P]
  · intro P
    rw [hUf P, hUf' P]
    unfold unlSpec
    rw [hq P]

/-- Claim C7, witness for the amended theorem: the two orderings of the
counterexample rows give tables with identical lookups. -/
theorem aggregate_mapping_perm_invariant_witness :
    ∃ D U D' U',
      processPafFile [mkPafRow "BT1 1AA", mkPafRow "BT2 2BB"] ["BT1", "BT2"]
          [mkOnsRow "BT1 1AA" "54.1" "-6.2"] = .ok (D, U) ∧
      processPafFile [mkPafRow "BT2 2BB", mkPafRow "BT1 1AA"] ["BT1", "BT2"]
          [mkOnsRow "BT1 1AA" "54.1" "-6.2"] = .ok (D', U') ∧
      (∀ P, findVal P D = findVal P D') ∧ (∀ P, findVal P U = findVal P U') :=
  aggregate_mapping_perm_invariant [mkPafRow "BT1 1AA", mkPafRow "BT2 2BB"]
    [mkPafRow "BT2 2BB", mkPafRow "BT1 1AA"] ["BT1", "BT2"]
    [mkOnsRow "BT1 1AA" "54.1" "-6.2"] (by decide) (by decide) (by decide)

/-- Claim C3 as amended: trimming applies the district filter uniformly to
every row, the first included (a header row survives only if its postcode
column happens to match a desired district), and the coordinate lookup scans
every row of the file starting with the first — nothing is skipped. -/
theorem trim_filters_every_row_and_lookup_scans_first :
    (∀ (rows : List (List String)) (desired : List String) (idx : Nat),
      (∀ r ∈ rows, idx < r.length) →
      trimFile rows desired idx
        = .ok (rows.filter (fun r => isDesiredPostcodeDistrict (r.getD idx "") desired))) ∧
    (∀ (row : List String) (rest : List (List String)) (P : String),
      43 ≤ row.length → row.getD onsPostcodeIdx "" = P →
      retrieveCoordsOns (row :: rest) P
        = .ok (some (row.getD onsLatitudeIdx "", row.getD onsLongitudeIdx ""))) := by
  constructor
  · intro rows desired idx h
    induction rows with
    | nil => rfl
    | cons row rest ih =>
      have hlen : idx < row.length := h row (List.mem_cons_self _ _)
      have hih := ih fun r hr => h r (List.mem_cons_of_mem _ hr)
      unfold trimFile
      rw [get?_eq_some_getD _ _ hlen, hih, List.filter_cons]
      rfl
  · intro row rest P hlen hpc
    have h2 : row.get? onsPostcodeIdx = some (row.getD onsPostcodeIdx "") :=
      get?_eq_some_getD _ _ (by simp only [onsPostcodeIdx]; omega)
    have h41 : row.get? onsLatitudeIdx = some (row.getD onsLatitudeIdx "") :=
      get?_eq_some_getD _ _ (by simp only [onsLatitudeIdx]; omega)
    have h42 : row.get? onsLongitudeIdx = some (row.getD onsLongitudeIdx "") :=
      get?_eq_some_getD _ _ (by simp only [onsLongitudeIdx]; omega)
    simp only [retrieveCoordsOns, h2, h41, h42, hpc]
    simp

/-- Claim C3, witness for the amended theorem: a header-like first row is
filtered (dropped), and a lookup is answered by the very first row. -/
theorem trim_filters_every_row_and_lookup_scans_first_witness :
    trimFile [["x", "y", "Postcode"], ["a", "b", "BT1 1AA"]] ["BT1"] onsPostcodeIdx
      = .ok (List.filter
          (fun r => isDesiredPostcodeDistrict (r.getD onsPostcodeIdx "") ["BT1"])
          [["x", "y", "Postcode"], ["a", "b", "BT1 1AA"]]) ∧
    retrieveCoordsOns [mkOnsRow "BT1 1AA" "54.1" "-6.2"] "BT1 1AA"
      = .ok (some ((mkOnsRow "BT1 1AA" "54.1" "-6.2").getD onsLatitudeIdx "",
          (mkOnsRow "BT1 1AA" "54.1" "-6.2").getD onsLongitudeIdx "")) :=
  ⟨trim_filters_every_row_and_lookup_scans_first.1
      [["x", "y", "Postcode"], ["a", "b", "BT1 1AA"]] ["BT1"] onsPostcodeIdx (by decide),
   trim_filters_every_row_and_lookup_scans_first.2
      (mkOnsRow "BT1 1AA" "54.1" "-6.2") [] "BT1 1AA" (by decide) (by rfl)⟩

/-! ### Claim C9 -/

theorem onsNameAccepted_iff (f letters : String) :
    onsNameAccepted f letters = true ↔
      ((strStartsWith f (ONS_FOLDER_NAME ++ "_UK_") && strEndsWith f ".csv") = true ∧
        lastSegment (strDropRight f 4) = letters) := by
  simp [onsNameAccepted, Bool.and_eq_true, and_assoc]

theorem findOnsFileGo_spec (dir outward letters : String) (files : List String) :
    ((∀ f ∈ files, onsNameAccepted f letters = false) →
      findOnsFileGo dir outward letters files
        = .error ("ONS file for " ++ outward ++ " couldn't be found in " ++ dir)) ∧
    (∀ p, findOnsFileGo dir outward letters files = .ok p →
      ∃ f, f ∈ files ∧ onsNameAccepted f letters = true ∧ p = pathJoin dir f) := by
  induction files with
  | nil => exact ⟨fun _ => rfl, fun p hp => Except.noConfusion hp⟩
  | cons f fs ih =>
    constructor
    · intro hall
      have hfnot := hall f (List.mem_cons_self _ _)
      unfold findOnsFileGo
      by_cases hb : (strStartsWith f (ONS_FOLDER_NAME ++ "_UK_") && strEndsWith f ".csv") = true
      · rw [if_pos hb]
        have hseg : ¬ lastSegment (strDropRight f 4) = letters := by
          intro hc
          have hacc : onsNameAccepted f letters = true := (onsNameAccepted_iff f letters).mpr ⟨hb, hc⟩
          rw [hfnot] at hacc
          exact Bool.noConfusion hacc
        rw [if_neg hseg]
        exact ih.1 fun g hg => hall g (List.mem_cons_of_mem _ hg)
      · rw [if_neg hb]
        exact ih.1 fun g hg => hall g (List.mem_cons_of_mem _ hg)
    · intro p hp
      unfold findOnsFileGo at hp
      by_cases hb : (strStartsWith f (ONS_FOLDER_NAME ++ "_UK_") && strEndsWith f ".csv") = true
      · rw [if_pos hb] at hp
        by_cases hseg : lastSegment (strDropRight f 4) = letters
        · rw [if_pos hseg] at hp
          exact ⟨f, List.mem_cons_self _ _, (onsNameAccepted_iff f letters).mpr ⟨hb, hseg⟩,
            (Except.ok.inj hp).symm⟩
        · rw [if_neg hseg] at hp
          obtain ⟨g, hg, hga, hgp⟩ := ih.2 p hp
          exact ⟨g, List.mem_cons_of_mem _ hg, hga, hgp⟩
      · rw [if_neg hb] at hp
        obtain ⟨g, hg, hga, hgp⟩ := ih.2 p hp
        exact ⟨g, List.mem_cons_of_mem _ hg, hga, hgp⟩

/-- Claim C9, counterexample: on an empty directory the error message names
the outward code exactly as supplied ("BT1"), not its digit-stripped letters
("BT") as the claim states; and the locator also accepts a file whose name
does not follow the plain convention name (an extra underscore segment),
because it only compares the last underscore-separated segment of the stem. -/
theorem ons_error_message_counterexample :
    findOnsFile "dir" [] "BT1" = .error "ONS file for BT1 couldn't be found in dir" ∧
    "ONS file for BT1 couldn't be found in dir" ≠ locatorMsgWithLetters "BT1" "dir" ∧
    findOnsFile "dir" ["ONSPD_AUG_2024_UK_X_BT.csv"] "BT1"
      = .ok "dir/ONSPD_AUG_2024_UK_X_BT.csv" ∧
    "ONSPD_AUG_2024_UK_X_BT.csv" ≠ conventionName (stripDigits "BT1") :=
  ⟨rfl, by decide, rfl, by decide⟩

/-- Claim C9 as amended: the locator selects (in listing order) a file whose
name starts with the dataset prefix plus "_UK_", ends in ".csv", and whose
stem's last underscore-separated segment equals the digit-stripped letters —
convention-named files qualify, but so do names with extra middle segments —
and when no file passes that test it fails with a message naming the outward
code as supplied (digits included) and the searched directory. -/
theorem ons_locator_behavior (dir : String) (files : List String) (outward : String) :
    ((∀ f ∈ files, onsNameAccepted f (stripDigits outward) = false) →
      findOnsFile dir files outward
        = .error ("ONS file for " ++ outward ++ " couldn't be found in " ++ dir)) ∧
    (∀ p, findOnsFile dir files outward = .ok p →
      ∃ f, f ∈ files ∧ onsNameAccepted f (stripDigits outward) = true ∧ p = pathJoin dir f) :=
  findOnsFileGo_spec dir outward (stripDigits outward) files

/-- Claim C9, witness: a directory without matches yields the error naming
"BT1" and "dir"; a convention-named file is selected and returned. -/
theorem ons_locator_behavior_witness :
    findOnsFile "dir" ["README.txt"] "BT1"
      = .error ("ONS file for " ++ "BT1" ++ " couldn't be found in " ++ "dir") ∧
    ∃ f, f ∈ ["ONSPD_AUG_2024_UK_BT.csv"] ∧
      onsNameAccepted f (stripDigits "BT1") = true ∧
      "dir/ONSPD_AUG_2024_UK_BT.csv" = pathJoin "dir" f :=
  ⟨(ons_locator_behavior "dir" ["README.txt"] "BT1").1 (by decide),
   (ons_locator_behavior "dir" ["ONSPD_AUG_2024_UK_BT.csv"] "BT1").2
      "dir/ONSPD_AUG_2024_UK_BT.csv" (by rfl)⟩

/-! ### Claim C10 -/

theorem upper_digit_disjoint (c : Char) (hu : isUpperAZ c = true) (hd : isDigit09 c = true) :
    False := by
  unfold isUpperAZ at hu
  unfold isDigit09 at hd
  rw [Bool.and_eq_true] at hu hd
  have h1 : 'A' ≤ c := of_decide_eq_true hu.1
  have h2 : c ≤ '9' := of_decide_eq_true hd.2
  exact absurd h1 (not_le.mpr (lt_of_le_of_lt h2 (by decide)))

theorem takeMatch_one_eq (p : Char → Bool) (a : Char) (cs : List Char) :
    takeMatch p 1 (a :: cs) = if p a then some ([a], cs) else none := by
  cases hp : p a <;> simp [takeMatch, hp]

theorem takeMatch_two_eq (p : Char → Bool) (a b : Char) (cs : List Char) :
    takeMatch p 2 (a :: b :: cs) = if p a && p b then some ([a, b], cs) else none := by
  cases hpa : p a <;> cases hpb : p b <;> simp [takeMatch, hpa, hpb]

theorem takeMatch_two_single (p : Char → Bool) (a : Char) : takeMatch p 2 [a] = none := by
  cases hpa : p a <;> simp [takeMatch, hpa]

theorem takeMatch_one_some (p : Char → Bool) (cs : List Char) (ls rest1 : List Char)
    (h : takeMatch p 1 cs = some (ls, rest1)) :
    ∃ a, cs = a :: rest1 ∧ p a = true ∧ ls = [a] := by
  match cs with
  | [] => simp [takeMatch] at h
  | a :: rest =>
    rw [takeMatch_one_eq] at h
    by_cases hp : p a = true
    · rw [if_pos hp] at h
      have h1 := congrArg Prod.fst (Option.some.inj h)
      have h2 := congrArg Prod.snd (Option.some.inj h)
      simp only at h1 h2
      exact ⟨a, by rw [← h2], hp, h1.symm⟩
    · rw [if_neg hp] at h
      exact Option.noConfusion h

theorem takeMatch_two_some (p : Char → Bool) (cs : List Char) (ls rest1 : List Char)
    (h : takeMatch p 2 cs = some (ls, rest1)) :
    ∃ a b, cs = a :: b :: rest1 ∧ p a = true ∧ p b = true ∧ ls = [a, b] := by
  match cs with
  | [] => simp [takeMatch] at h
  | [a] => rw [takeMatch_two_single] at h; exact Option.noConfusion h
  | a :: b :: rest =>
    rw [takeMatch_two_eq] at h
    by_cases hab : (p a && p b) = true
    · rw [if_pos hab] at h
      rw [Bool.and_eq_true] at hab
      obtain ⟨ha, hb⟩ := hab
      have h1 := congrArg Prod.fst (Option.some.inj h)
      have h2 := congrArg Prod.snd (Option.some.inj h)
      simp only at h1 h2
      exact ⟨a, b, by rw [← h2], ha, hb, h1.symm⟩
    · rw [if_neg hab] at h
      exact Option.noConfusion h

theorem tryLD_some (nl nd : Nat) (cs l : List Char) (h : tryLD nl nd cs = some l) :
    ∃ ls rest1 ds rest2, takeMatch isUpperAZ nl cs = some (ls, rest1) ∧
      takeMatch isDigit09 nd rest1 = some (ds, rest2) ∧ l = ls ++ ds := by
  unfold tryLD at h
  cases h1 : takeMatch isUpperAZ nl cs with
  | none => rw [h1] at h; simp at h
  | some x =>
    rw [h1] at h
    simp only [Option.some_bind] at h
    cases h2 : takeMatch isDigit09 nd x.2 with
    | none => rw [h2] at h; simp at h
    | some y =>
      rw [h2] at h
      simp only [Option.map_some'] at h
      exact ⟨x.1, x.2, y.1, y.2, rfl, h2, (Option.some.inj h).symm⟩

theorem tryLD_22_mk (a b c d : Char) (rest : List Char) (ha : isUpperAZ a = true)
    (hb : isUpperAZ b = true) (hc : isDigit09 c = true) (hd : isDigit09 d = true) :
    tryLD 2 2 (a :: b :: c :: d :: rest) = some [a, b, c, d] := by
  simp [tryLD, takeMatch_two_eq, ha, hb, hc, hd]

theorem tryLD_12_mk (a b c : Char) (rest : List Char) (ha : isUpperAZ a = true)
    (hb : isDigit09 b = true) (hc : isDigit09 c = true) :
    tryLD 1 2 (a :: b :: c :: rest) = some [a, b, c] := by
  simp [tryLD, takeMatch_one_eq, takeMatch_two_eq, ha, hb, hc]

theorem isLDForm_cases (p : List Char) (h : isLDForm p = true) :
    (∃ a b, p = [a, b] ∧ isUpperAZ a = true ∧ isDigit09 b = true) ∨
    (∃ a b c, p = [a, b, c] ∧ isUpperAZ a = true ∧ isUpperAZ b = true ∧ isDigit09 c = true) ∨
    (∃ a b c, p = [a, b, c] ∧ isUpperAZ a = true ∧ isDigit09 b = true ∧ isDigit09 c = true) ∨
    (∃ a b c d, p = [a, b, c, d] ∧ isUpperAZ a = true ∧ isUpperAZ b = true ∧
      isDigit09 c = true ∧ isDigit09 d = true) := by
  match p with
  | [] => simp [isLDForm] at h
  | [a] => simp [isLDForm] at h
  | [a, b] =>
    simp only [isLDForm, Bool.and_eq_true] at h
    exact Or.inl ⟨a, b, rfl, h.1, h.2⟩
  | [a, b, c] =>
    simp only [isLDForm, Bool.and_eq_true, Bool.or_eq_true] at h
    rcases h with ⟨⟨h1, h2⟩, h3⟩ | ⟨⟨h1, h2⟩, h3⟩
    · exact Or.inr (Or.inl ⟨a, b, c, rfl, h1, h2, h3⟩)
    · exact Or.inr (Or.inr (Or.inl ⟨a, b, c, rfl, h1, h2, h3⟩))
  | [a, b, c, d] =>
    simp only [isLDForm, Bool.and_eq_true] at h
    obtain ⟨⟨⟨h1, h2⟩, h3⟩, h4⟩ := h
    exact Or.inr (Or.inr (Or.inr ⟨a, b, c, d, rfl, h1, h2, h3, h4⟩))
  | _ :: _ :: _ :: _ :: _ :: _ => simp [isLDForm] at h

theorem orElse_some {α : Type} {o o' : Option α} {x : α} (h : (o <|> o') = some x) :
    o = some x ∨ (o = none ∧ o' = some x) := by
  cases o with
  | none => exact Or.inr ⟨rfl, by simpa using h⟩
  | some a => exact Or.inl (by simpa using h)

/-- Claim C10: the district pattern captures, by greedy matching, the longest
prefix of the input that is one-or-two uppercase letters followed by
one-or-two digits; membership in the desired set is tested only against that
maximal capture, so a desired district strictly shorter than the capture can
never make the row match. -/
theorem district_match_maximal_munch (s d : String) (h : districtMatch s = some d) :
    (d.data <+: s.data ∧ isLDForm d.data = true ∧
      ∀ p, p <+: s.data → isLDForm p = true → p.length ≤ d.data.length) ∧
    (∀ dist : String, dist.length < d.length → isDesiredPostcodeDistrict s [dist] = false) := by
  have hm : (tryLD 2 2 s.data <|> tryLD 2 1 s.data <|> tryLD 1 2 s.data <|> tryLD 1 1 s.data)
      = some d.data := by
    unfold districtMatch at h
    cases hmm : (tryLD 2 2 s.data <|> tryLD 2 1 s.data <|> tryLD 1 2 s.data
        <|> tryLD 1 1 s.data) with
    | none => rw [hmm] at h; exact Option.noConfusion h
    | some cap =>
      rw [hmm] at h
      have hcap := Option.some.inj h
      rw [← hcap]
  have part2 : ∀ dist : String, dist.length < d.length →
      isDesiredPostcodeDistrict s [dist] = false := by
    intro dist hlen
    have hne : (d == dist) = false := by
      rw [beq_eq_false_iff_ne]
      intro hc
      rw [hc] at hlen
      exact absurd hlen (lt_irrefl _)
    unfold isDesiredPostcodeDistrict
    rw [h]
    show [dist].contains d = false
    simp [List.contains, List.elem, hne]
  refine ⟨?_, part2⟩
  rcases orElse_some hm with h22 | ⟨n22, hm2⟩
  · -- two letters, two digits: the longest possible capture
    obtain ⟨ls, rest1, ds, rest2, hx, hy, hl⟩ := tryLD_some 2 2 s.data d.data h22
    obtain ⟨a, b, hcs, ha, hb, hls⟩ := takeMatch_two_some _ _ _ _ hx
    obtain ⟨c, d4, hrest1, hc, hd4, hds⟩ := takeMatch_two_some _ _ _ _ hy
    have hdd : d.data = [a, b, c, d4] := by rw [hl, hls, hds]; rfl
    refine ⟨?_, ?_, ?_⟩
    · rw [hdd, hcs, hrest1]; exact ⟨rest2, rfl⟩
    · rw [hdd]; simp [isLDForm, ha, hb, hc, hd4]
    · intro p hp hform
      rw [hdd]
      rcases isLDForm_cases p hform with ⟨a', b', hpe, _⟩ | ⟨a', b', c', hpe, _⟩ |
        ⟨a', b', c', hpe, _⟩ | ⟨a', b', c', d', hpe, _⟩ <;> subst hpe <;> simp
  · rcases orElse_some hm2 with h21 | ⟨n21, hm3⟩
    · -- two letters, one digit
      obtain ⟨ls, rest1, ds, rest2, hx, hy, hl⟩ := tryLD_some 2 1 s.data d.data h21
      obtain ⟨a, b, hcs, ha, hb, hls⟩ := takeMatch_two_some _ _ _ _ hx
      obtain ⟨c, hrest1, hc, hds⟩ := takeMatch_one_some _ _ _ _ hy
      have hdd : d.data = [a, b, c] := by rw [hl, hls, hds]; rfl
      refine ⟨?_, ?_, ?_⟩
      · rw [hdd, hcs, hrest1]; exact ⟨rest2, rfl⟩
      · rw [hdd]; simp [isLDForm, ha, hb, hc]
      · intro p hp hform
        rcases isLDForm_cases p hform with ⟨a', b', hpe, _⟩ | ⟨a', b', c', hpe, _⟩ |
          ⟨a', b', c', hpe, _⟩ | ⟨a', b', c', d', hpe, hu1, hu2, hg1, hg2⟩
        · subst hpe; rw [hdd]; simp
        · subst hpe; rw [hdd]; simp
        · subst hpe; rw [hdd]; simp
        · -- a four-character form prefix would have made the first alternative fire
          subst hpe
          obtain ⟨t, ht⟩ := hp
          rw [hcs, hrest1] at ht
          simp only [List.cons_append, List.nil_append, List.cons.injEq] at ht
          obtain ⟨he1, he2, he3, he4⟩ := ht
          have hcon : tryLD 2 2 s.data = some [a, b, c, d'] := by
            rw [hcs, hrest1, ← he4]
            exact tryLD_22_mk a b c d' t ha hb hc (hg2)
          exact Option.noConfusion (n22.symm.trans hcon)
    · rcases orElse_some hm3 with h12 | ⟨n12, h11⟩
      · -- one letter, two digits
        obtain ⟨ls, rest1, ds, rest2, hx, hy, hl⟩ := tryLD_some 1 2 s.data d.data h12
        obtain ⟨a, hcs, ha, hls⟩ := takeMatch_one_some _ _ _ _ hx
        obtain ⟨b, c, hrest1, hb, hc, hds⟩ := takeMatch_two_some _ _ _ _ hy
        have hdd : d.data = [a, b, c] := by rw [hl, hls, hds]; rfl
        refine ⟨?_, ?_, ?_⟩
        · rw [hdd, hcs, hrest1]; exact ⟨rest2, rfl⟩
        · rw [hdd]; simp [isLDForm, ha, hb, hc]
        · intro p hp hform
          rcases isLDForm_cases p hform with ⟨a', b', hpe, _⟩ | ⟨a', b', c', hpe, hu1, hu2, hg⟩ |
            ⟨a', b', c', hpe, _⟩ | ⟨a', b', c', d', hpe, hu1, hu2, hg1, hg2⟩
          · subst hpe; rw [hdd]; simp
          · -- its second character would have to be both a letter and a digit
            subst hpe
            obtain ⟨t, ht⟩ := hp
            rw [hcs, hrest1] at ht
            simp only [List.cons_append, List.nil_append, List.cons.injEq] at ht
            obtain ⟨he1, he2, _⟩ := ht
            exact (upper_digit_disjoint b (he2 ▸ hu2) hb).elim
          · subst hpe; rw [hdd]; simp
          · subst hpe
            obtain ⟨t, ht⟩ := hp
            rw [hcs, hrest1] at ht
            simp only [List.cons_append, List.nil_append, List.cons.injEq] at ht
            obtain ⟨he1, he2, _⟩ := ht
            exact (upper_digit_disjoint b (he2 ▸ hu2) hb).elim
      · -- one letter, one digit
        obtain ⟨ls, rest1, ds, rest2, hx, hy, hl⟩ := tryLD_some 1 1 s.data d.data h11
        obtain ⟨a, hcs, ha, hls⟩ := takeMatch_one_some _ _ _ _ hx
        obtain ⟨b, hrest1, hb, hds⟩ := takeMatch_one_some _ _ _ _ hy
        have hdd : d.data = [a, b] := by rw [hl, hls, hds]; rfl
        refine ⟨?_, ?_, ?_⟩
        · rw [hdd, hcs, hrest1]; exact ⟨rest2, rfl⟩
        · rw [hdd]; simp [isLDForm, ha, hb]
        · intro p hp hform
          rcases isLDForm_cases p hform with ⟨a', b', hpe, _⟩ | ⟨a', b', c', hpe, hu1, hu2, hg⟩ |
            ⟨a', b', c', hpe, hu, hg1, hg2⟩ | ⟨a', b', c', d', hpe, hu1, hu2, hg1, hg2⟩
          · subst hpe; rw [hdd]; simp
          · subst hpe
            obtain ⟨t, ht⟩ := hp
            rw [hcs, hrest1] at ht
            simp only [List.cons_append, List.nil_append, List.cons.injEq] at ht
            obtain ⟨he1, he2, _⟩ := ht
            exact (upper_digit_disjoint b (he2 ▸ hu2) hb).elim
          · -- a one-letter-two-digit prefix would have made the third alternative fire
            subst hpe
            obtain ⟨t, ht⟩ := hp
            rw [hcs, hrest1] at ht
            simp only [List.cons_append, List.nil_append, List.cons.injEq] at ht
            obtain ⟨he1, he2, he3⟩ := ht
            have hcon : tryLD 1 2 s.data = some [a, b, c'] := by
              rw [hcs, hrest1, ← he3]
              exact tryLD_12_mk a b c' t ha hb hg2
            exact Option.noConfusion (n12.symm.trans hcon)
          · subst hpe
            obtain ⟨t, ht⟩ := hp
            rw [hcs, hrest1] at ht
            simp only [List.cons_append, List.nil_append, List.cons.injEq] at ht
            obtain ⟨he1, he2, _⟩ := ht
            exact (upper_digit_disjoint b (he2 ▸ hu2) hb).elim

/-- Claim C10, witness: the capture of "B12 3CD" is "B12", so the shorter
desired district "B1" does not match. -/
theorem district_match_maximal_munch_witness :
    isDesiredPostcodeDistrict "B12 3CD" ["B1"] = false :=
  (district_match_maximal_munch "B12 3CD" "B12" (by rfl)).2 "B1" (by decide)

end PostcodeParse
